import Mathlib

/-!
# Verification of the claude-remember session ledger & dual-sink persistence engine

Shallow embedding of the core of `src/db.ts`, `src/handler.ts` and
`src/markdown.ts`: the structured SQLite store operations, the retry and
durable-failure-queue layer, the store-open corruption recovery, and the
session identity resolver (markdown narrative-log target resolution).

SQL tables become lists of row structures; SQL statements become pure
functions on a `Db` state.  The filesystem is an association list from
paths to file contents.  Fallible code (`throw` in TypeScript) becomes
`Except`.
-/

set_option maxHeartbeats 1000000

namespace ClaudeRemember

/-! ## String primitives

Kernel-computable replacements for the string operations the embedded code
needs: lexicographic comparison by code point (what JS string comparison
and SQLite's BINARY collation give on the ASCII data handled here),
substring/suffix tests, take, and splitting.  Each mirrors the obvious
JavaScript semantics. -/

def strLtL : List Char → List Char → Bool
  | [], [] => false
  | [], _ :: _ => true
  | _ :: _, [] => false
  | a :: as, b :: bs =>
    if a.toNat < b.toNat then true
    else if b.toNat < a.toNat then false
    else strLtL as bs

/-- `a < b` for strings (lexicographic, by code point). -/
def strLt (a b : String) : Bool := strLtL a.toList b.toList

/-- `a <= b` for strings, as the negation of `strLt b a`. -/
def strLe (a b : String) : Bool := !(strLt b a)

def prefixEq : List Char → List Char → Bool
  | [], _ => true
  | _ :: _, [] => false
  | a :: as, b :: bs => a == b && prefixEq as bs

def hasSubList (pat : List Char) : List Char → Bool
  | [] => prefixEq pat []
  | c :: t => prefixEq pat (c :: t) || hasSubList pat t

/-- `s.includes(pat)` (substring containment). -/
def strHasSub (s pat : String) : Bool := hasSubList pat.toList s.toList

/-- `s.endsWith(post)`. -/
def strEndsWith (s post : String) : Bool :=
  prefixEq post.toList.reverse s.toList.reverse

/-- `s.substring(0, n)`. -/
def strTake (s : String) (n : Nat) : String := String.mk (s.toList.take n)

def digitsToNat (l : List Char) : Nat :=
  l.foldl (fun a c => a * 10 + (c.toNat - '0'.toNat)) 0

/-- Split a character list on a separator character. -/
def splitOnChar (sep : Char) (l : List Char) : List (List Char) :=
  l.foldr
    (fun c acc =>
      match acc with
      | [] => [[c]]
      | cur :: rest => if c == sep then [] :: cur :: rest else (c :: cur) :: rest)
    [[]]

theorem strLtL_irrefl : ∀ l, strLtL l l = false
  | [] => rfl
  | a :: as => by simp [strLtL, strLtL_irrefl as]

theorem strLtL_asymm : ∀ a b, strLtL a b = true → strLtL b a = false
  | [], [] => by simp [strLtL]
  | [], _ :: _ => fun _ => rfl
  | _ :: _, [] => by simp [strLtL]
  | a :: as, b :: bs => by
    intro h
    simp only [strLtL] at h ⊢
    by_cases h1 : a.toNat < b.toNat
    · rw [if_neg (by omega), if_pos h1]
    · rw [if_neg h1] at h
      by_cases h2 : b.toNat < a.toNat
      · rw [if_pos h2] at h
        simp at h
      · rw [if_neg h2] at h
        rw [if_neg h2, if_neg h1]
        exact strLtL_asymm as bs h

theorem strLtL_notLt_trans :
    ∀ a b c, strLtL b a = false → strLtL c b = false → strLtL c a = false := by
  intro a
  induction a with
  | nil =>
    intro b c _ _
    cases c <;> rfl
  | cons aa as ih =>
    intro b c h1 h2
    cases b with
    | nil => simp [strLtL] at h1
    | cons bb bs =>
      cases c with
      | nil => simp [strLtL] at h2
      | cons cc cs =>
        simp only [strLtL] at h1 h2 ⊢
        by_cases q1 : bb.toNat < aa.toNat
        · rw [if_pos q1] at h1
          simp at h1
        · rw [if_neg q1] at h1
          by_cases q2 : cc.toNat < bb.toNat
          · rw [if_pos q2] at h2
            simp at h2
          · rw [if_neg q2] at h2
            by_cases q3 : aa.toNat < bb.toNat
            · rw [if_neg (by omega), if_pos (by omega)]
            · by_cases q4 : bb.toNat < cc.toNat
              · rw [if_neg (by omega), if_pos (by omega)]
              · rw [if_neg q3] at h1
                rw [if_neg q4] at h2
                rw [if_neg (by omega), if_neg (by omega)]
                exact ih bs cs h1 h2

theorem strLe_refl (a : String) : strLe a a = true := by
  simp [strLe, strLt, strLtL_irrefl]

theorem strLe_trans {a b c : String} (h1 : strLe a b = true) (h2 : strLe b c = true) :
    strLe a c = true := by
  simp only [strLe, strLt, Bool.not_eq_true'] at h1 h2 ⊢
  exact strLtL_notLt_trans a.toList b.toList c.toList h1 h2

theorem strLe_of_lt {a b : String} (h : strLt a b = true) : strLe a b = true := by
  simp only [strLe, strLt, Bool.not_eq_true']
  exact strLtL_asymm a.toList b.toList h

theorem strLe_of_not_lt {a b : String} (h : strLt a b = false) : strLe b a = true := by
  simp only [strLe, h, Bool.not_false]

/-! ## Structured store data model (`src/db.ts` SCHEMA)

One row structure per table.  `interface` is a keyword-like name in this
context, so the field is called `iface`; `success` is the SQLite INTEGER
column (NULL / 0 / 1), modelled as `Option Nat`. -/

structure SessionRow where
  id : String
  project_path : String
  started_at : String
  ended_at : Option String
  status : String
  summary : Option String
  message_count : Nat
  iface : String
  markdown_path : Option String
deriving Repr, DecidableEq

structure MessageRow where
  id : Nat
  session_id : String
  timestamp : String
  role : String
  content : String
  tool_name : Option String
  tool_input : Option String
  tool_output : Option String
deriving Repr, DecidableEq

structure ToolCallRow where
  id : Nat
  session_id : String
  message_id : Option Nat
  timestamp : String
  tool_name : String
  input_summary : Option String
  success : Option Nat
  duration_ms : Option Nat
deriving Repr, DecidableEq

structure EventRow where
  id : Nat
  session_id : String
  timestamp : String
  event_type : String
  subtype : Option String
  tool_name : Option String
  message : Option String
  metadata : Option String
deriving Repr, DecidableEq

structure BackupRow where
  id : Nat
  session_id : String
  timestamp : String
  trigger : String
  transcript_path : String
  backup_path : Option String
deriving Repr, DecidableEq

/-- The whole structured store: one list per table plus the AUTOINCREMENT
counters for the two tables whose generated ids the code reads back. -/
structure Db where
  sessions : List SessionRow
  messages : List MessageRow
  toolCalls : List ToolCallRow
  events : List EventRow
  backups : List BackupRow
  nextMessageId : Nat
  nextToolCallId : Nat
deriving Repr, DecidableEq

def emptyDb : Db := ⟨[], [], [], [], [], 1, 1⟩

/-! ## Store mutations (`src/db.ts`) -/

/-- `createSession` (db.ts:194-209): `INSERT OR REPLACE INTO sessions`.
`REPLACE` deletes any existing row with the same primary key and inserts a
new one; the columns not named in the INSERT (`ended_at`, `summary`,
`message_count`) take their schema defaults (`NULL`, `NULL`, `0`). -/
def createSession (db : Db) (id proj started status iface0 : String)
    (md : Option String) : Db :=
  { db with sessions :=
      db.sessions.filter (fun s => s.id != id)
        ++ [⟨id, proj, started, none, status, none, 0, iface0, md⟩] }

/-- `incrementMessageCount` (db.ts:247-255): `UPDATE sessions SET
message_count = message_count + 1 WHERE id = ?` (a no-op when no row
matches). -/
def incrementMessageCount (db : Db) (sid : String) : Db :=
  { db with sessions := db.sessions.map fun s =>
      if s.id = sid then { s with message_count := s.message_count + 1 } else s }

/-- `insertMessage` (db.ts:258-278): inserts the message row, then calls
`incrementMessageCount` for its session. -/
def insertMessage (db : Db) (sid ts role content : String)
    (tn ti tout : Option String) : Db :=
  let row : MessageRow := ⟨db.nextMessageId, sid, ts, role, content, tn, ti, tout⟩
  incrementMessageCount
    { db with messages := db.messages ++ [row], nextMessageId := db.nextMessageId + 1 }
    sid

/-- `updateSessionEnd` (db.ts:229-239). -/
def updateSessionEnd (db : Db) (sid reason now : String) : Db :=
  let status := if reason = "logout" ∨ reason = "prompt_input_exit"
    then "completed" else "interrupted"
  { db with sessions := db.sessions.map fun s =>
      if s.id = sid then { s with ended_at := some now, status := status } else s }

/-- `updateSessionMarkdownPath` (db.ts:211-220): a no-op when the session
row does not exist. -/
def updateSessionMarkdownPath (db : Db) (sid path : String) : Db :=
  { db with sessions := db.sessions.map fun s =>
      if s.id = sid then { s with markdown_path := some path } else s }

/-- `insertToolCall` (db.ts:291-308). -/
def insertToolCall (db : Db) (sid : String) (mid : Option Nat) (ts tool : String)
    (insum : Option String) (succ dur : Option Nat) : Db :=
  { db with
      toolCalls := db.toolCalls ++ [⟨db.nextToolCallId, sid, mid, ts, tool, insum, succ, dur⟩],
      nextToolCallId := db.nextToolCallId + 1 }

/-- The rows of `tool_calls` matching `session_id = ? AND tool_name = ?`. -/
def toolCallCandidates (db : Db) (sid tool : String) : List ToolCallRow :=
  db.toolCalls.filter (fun r => r.session_id == sid && r.tool_name == tool)

/-- The row selected by `ORDER BY timestamp DESC LIMIT 1`: a row of maximal
timestamp.  SQLite leaves the order of rows with equal timestamps
unspecified; this model keeps the earliest-inserted of any ties, and the
theorems below do not depend on the tie order. -/
def pickLatest : List ToolCallRow → Option ToolCallRow
  | [] => none
  | r :: rs => some (rs.foldl (fun acc x => if strLt acc.timestamp x.timestamp then x else acc) r)

/-- `updateToolCallSuccess` (db.ts:310-325): `UPDATE tool_calls SET success
= ?, duration_ms = ? WHERE id = (SELECT id FROM tool_calls WHERE session_id
= ? AND tool_name = ? ORDER BY timestamp DESC LIMIT 1)`.  Note: the
subquery does not require `success IS NULL`; when it yields no row the
UPDATE matches nothing. -/
def updateToolCallSuccess (db : Db) (sid tool : String) (succ : Bool)
    (dur : Option Nat) : Db :=
  match pickLatest (toolCallCandidates db sid tool) with
  | none => db
  | some r =>
    { db with toolCalls := db.toolCalls.map fun x =>
        if x.id = r.id
          then { x with success := some (if succ then 1 else 0), duration_ms := dur }
          else x }

/-- `insertEvent` (db.ts:369-386). -/
def insertEvent (db : Db) (e : EventRow) : Db :=
  { db with events := db.events ++ [e] }

/-- `insertTranscriptBackup` (db.ts:398-413). -/
def insertTranscriptBackup (db : Db) (b : BackupRow) : Db :=
  { db with backups := db.backups ++ [b] }

/-! ## Analytics (`getToolUsageStats`, db.ts:328-345)

`AVG(CASE WHEN success = 1 THEN 100.0 ELSE 0 END)` rounded to two decimal
places, per `tool_name` group under the optional `session_id` filter.  The
two functions below compute the `count` and `success_rate` columns for one
group.  SQLite `ROUND` rounds halves away from zero; the scores are
nonnegative, where that agrees with Mathlib's `round`. -/

def round2 (q : ℚ) : ℚ := ((round (q * 100) : ℤ) : ℚ) / 100

def successScore (r : ToolCallRow) : ℚ := if r.success = some 1 then 100 else 0

def toolUsageCount (db : Db) (sid tool : String) : Nat :=
  (toolCallCandidates db sid tool).length

def toolUsageSuccessRate (db : Db) (sid tool : String) : ℚ :=
  let rows := toolCallCandidates db sid tool
  round2 (((rows.map successScore).sum) / rows.length)

/-! ## PostToolUse success flag (`handlePostToolUse`, handler.ts:594-632) -/

/-- The relevant fields of the JSON `tool_response`.  `success` is `none`
when the field is absent (or not the literal `false`/`true`); `exit_code`
is `none` when absent. -/
structure ToolResponse where
  success : Option Bool
  exit_code : Option Int
deriving Repr, DecidableEq

/-- handler.ts:613: `const success = tool_response.success !== false &&
tool_response.exit_code !== 1;` (strict `!==`: only the literal `false`
resp. the number `1` make the conjuncts fail). -/
def computeToolSuccess (r : ToolResponse) : Bool :=
  !(r.success == some false) && !(r.exit_code == some 1)

/-- The dual-sink part of `handlePostToolUse`: the one computed flag is
passed to `updateToolCallSuccess` (structured store) and to
`appendToolResult` (narrative log); the second component is the flag the
narrative log renders. -/
def handlePostToolUseDb (db : Db) (sid tool : String) (resp : ToolResponse)
    (dur : Option Nat) : Db × Bool :=
  (updateToolCallSuccess db sid tool (computeToolSuccess resp) dur,
   computeToolSuccess resp)

/-! ## Operation sequences over the store (for the message-count invariant)

One constructor per exported mutation of `src/db.ts` that the handler
invokes.  (`incrementMessageCount` is internal to `insertMessage` and has
no standalone caller.) -/

inductive DbOp where
  | createSessionOp (id proj started status iface0 : String) (md : Option String)
  | insertMessageOp (sid ts role content : String) (tn ti tout : Option String)
  | updateSessionEndOp (sid reason now : String)
  | updateSessionMarkdownPathOp (sid path : String)
  | insertToolCallOp (sid : String) (mid : Option Nat) (ts tool : String)
      (insum : Option String) (succ dur : Option Nat)
  | updateToolCallSuccessOp (sid tool : String) (succ : Bool) (dur : Option Nat)
  | insertEventOp (e : EventRow)
  | insertBackupOp (b : BackupRow)
deriving Repr, DecidableEq

def applyOp (db : Db) : DbOp → Db
  | .createSessionOp i p st s f md => createSession db i p st s f md
  | .insertMessageOp sid ts role c tn ti tout => insertMessage db sid ts role c tn ti tout
  | .updateSessionEndOp sid r now => updateSessionEnd db sid r now
  | .updateSessionMarkdownPathOp sid p => updateSessionMarkdownPath db sid p
  | .insertToolCallOp sid mid ts tool insum succ dur =>
      insertToolCall db sid mid ts tool insum succ dur
  | .updateToolCallSuccessOp sid tool succ dur => updateToolCallSuccess db sid tool succ dur
  | .insertEventOp e => insertEvent db e
  | .insertBackupOp b => insertTranscriptBackup db b

def applyOps (db : Db) (ops : List DbOp) : Db := ops.foldl applyOp db

/-- The message rows of one session. -/
def messagesFor (db : Db) (sid : String) : List MessageRow :=
  db.messages.filter (fun m => m.session_id == sid)

/-- Invariant (2) of the spec: every session row's stored `message_count`
equals the number of message rows for that session id. -/
def msgInv (db : Db) : Prop :=
  ∀ s ∈ db.sessions, s.message_count = (messagesFor db s.id).length

instance : DecidablePred msgInv := fun db =>
  inferInstanceAs (Decidable (∀ s ∈ db.sessions, _))

/-- A step is unguarded except for `createSession`, which must not be
re-applied to a session that already has message rows (the REPLACE resets
the stored counter to the schema default `0`). -/
def okStep (db : Db) : DbOp → Bool
  | .createSessionOp i _ _ _ _ _ => messagesFor db i == []
  | _ => true

def guarded : Db → List DbOp → Bool
  | _, [] => true
  | db, op :: rest => okStep db op && guarded (applyOp db op) rest

/-! ## Retry layer and durable failure queue (`src/handler.ts`) -/

/-- A hook event payload, opaque except for its name (used for logging)
and its working directory (used to pick the per-project configuration). -/
structure HookPayload where
  hook_event_name : String
  cwd : String
deriving Repr, DecidableEq

/-- `FailedEvent` (handler.ts:100-105). -/
structure FailedEvent where
  timestamp : String
  event : HookPayload
  error : String
  attempts : Nat
deriving Repr, DecidableEq

/-- The retry-relevant configuration fields (`src/config.ts`
DEFAULT_CONFIG plus the per-project overrides of `getEffectiveConfig`). -/
structure RetryCfg where
  blockOnFailure : Bool
  maxRetries : Nat
  retryDelayMs : Nat
  maxSearchDays : Nat
deriving Repr, DecidableEq

/-- config.ts:9-24 defaults: blockOnFailure=false, maxRetries=3,
retryDelayMs=2000, maxSearchDays=7. -/
def defaultRetryCfg : RetryCfg := ⟨false, 3, 2000, 7⟩

/-- `storeFailedEvent` (handler.ts:107-136): parse the queue file, push the
new entry, and keep only the last 100 entries (`slice(-100)`): the cap is
the literal `100` in the source. -/
def storeFailedEvent (q : List FailedEvent) (now : String) (e : HookPayload)
    (err : String) (attempts : Nat) : List FailedEvent :=
  let q2 := q ++ [⟨now, e, err, attempts⟩]
  if 100 < q2.length then q2.drop (q2.length - 100) else q2

/-- `withRetry` (handler.ts:71-95), attempts numbered `attempt`,
`attempt+1`, …, with `fuel` further attempts allowed after the current
one.  The operation is a function of the attempt number so that a backend
that recovers mid-retry is expressible. -/
def withRetryAux (op : Nat → Except String α) (attempt : Nat) : Nat → Except String α
  | 0 => op attempt
  | fuel + 1 =>
    match op attempt with
    | .ok v => .ok v
    | .error _ => withRetryAux op (attempt + 1) fuel

/-- `withRetry` with `maxRetries` attempts starting at attempt 1; with all
attempts failing, the last attempt's error is rethrown (handler.ts:94).
`maxRetries = 0` never runs the loop body and throws the initial
`lastError` (`undefined` in the source). -/
def withRetry (op : Nat → Except String α) (maxRetries : Nat) : Except String α :=
  match maxRetries with
  | 0 => .error "undefined"
  | fuel + 1 => withRetryAux op 1 fuel

/-- `retryFailedEventsFromPrompt` (handler.ts:141-197), the `replayAll`
operation of the spec: re-run each queued entry under the retry policy
with that entry's effective configuration; entries that now succeed are
dropped, entries that still fail are kept with `attempts` increased by the
effective `maxRetries` and the new error text.  The updated queue is
written back. -/
def replayAll (q : List FailedEvent) (cfgFor : HookPayload → RetryCfg)
    (opFor : FailedEvent → Nat → Except String Unit) : List FailedEvent :=
  q.filterMap fun fe =>
    match withRetry (opFor fe) (cfgFor fe.event).maxRetries with
    | .ok _ => none
    | .error e =>
      some { fe with
              attempts := fe.attempts + (cfgFor fe.event).maxRetries
              error := e }

/-! ## The process boundary (`main`, handler.ts:984-1057) -/

/-- What one process invocation read from stdin: nothing (or only
whitespace), an unparsable payload, or one parsed JSON event. -/
inductive StdinInput where
  | empty
  | malformed (raw : String)
  | valid (e : HookPayload)
deriving Repr, DecidableEq

/-- Observable outcome of one process invocation: the exit code, the
failure-queue file afterwards, and which event (if any) reached the
persistence path `processEvent`. -/
structure MainResult where
  exitCode : Nat
  queue : List FailedEvent
  processed : Option HookPayload
deriving Repr, DecidableEq

/-- `main` (handler.ts:984-1057).  `gcfg` is the global configuration
(`getConfig()`); `ecfg e` is the effective configuration
(`getEffectiveConfig(input.cwd)`), installed only after parsing succeeds —
a parse error is handled under the still-global `config` (handler.ts:986,
997, 1048).  Empty stdin returns through the `finally` block with exit
code 0.  A parse error reaches the outer catch: nothing was processed and
nothing is queued, but `blockOnFailure` in the *global* config sets exit
code 1.  For a parsed event, retry exhaustion stores one failure-queue
entry and the effective `blockOnFailure` picks the exit code. -/
def mainModel (inp : StdinInput) (gcfg : RetryCfg) (ecfg : HookPayload → RetryCfg)
    (op : HookPayload → Nat → Except String Unit) (q : List FailedEvent)
    (now : String) : MainResult :=
  match inp with
  | .empty => ⟨0, q, none⟩
  | .malformed _ => ⟨if gcfg.blockOnFailure then 1 else 0, q, none⟩
  | .valid e =>
    let cfg := ecfg e
    match withRetry (op e) cfg.maxRetries with
    | .ok _ => ⟨0, q, some e⟩
    | .error err =>
      ⟨if cfg.blockOnFailure then 1 else 0,
       storeFailedEvent q now e err cfg.maxRetries, none⟩

/-! ## Store opening with corruption recovery (`getDatabase`, db.ts:89-147)

The filesystem is an association list from paths to file contents.  A
SQLite file is summarised by its row count and whether `PRAGMA
integrity_check` passes; any non-SQLite content is `garbage`. -/

inductive FileContent where
  | emptyFile
  | dbFile (rows : Nat) (intact : Bool)
  | garbage
deriving Repr, DecidableEq

abbrev Fsys := List (String × FileContent)

def fsLookup (fs : Fsys) (p : String) : Option FileContent :=
  (fs.find? (fun kv => kv.1 == p)).map Prod.snd

def fsExists (fs : Fsys) (p : String) : Bool := (fsLookup fs p).isSome

def fsRemove (fs : Fsys) (p : String) : Fsys := fs.filter (fun kv => kv.1 != p)

def fsSet (fs : Fsys) (p : String) (c : FileContent) : Fsys := fsRemove fs p ++ [(p, c)]

/-- `renameSync`: a no-op when the source does not exist (the code guards
each rename with `existsSync`). -/
def fsRename (fs : Fsys) (src dst : String) : Fsys :=
  match fsLookup fs src with
  | none => fs
  | some c => fsSet (fsRemove fs src) dst c

/-- An open store handle; holding one entails the schema is initialized
and the integrity check passed (or the file was new). -/
structure DbHandle where
  rows : Nat
deriving Repr, DecidableEq

/-- `openAndInitializeDatabase` (db.ts:153-183): open with `create:true`
(a missing or zero-byte file becomes a fresh database), run the integrity
check on databases that already have tables, and throw if it fails or the
file is not a database at all; then create the schema. -/
def openAndInitializeDatabase (fs : Fsys) (p : String) :
    Except String (DbHandle × Fsys) :=
  match fsLookup fs p with
  | none => .ok (⟨0⟩, fsSet fs p (.dbFile 0 true))
  | some .emptyFile => .ok (⟨0⟩, fsSet fs p (.dbFile 0 true))
  | some (.dbFile r true) => .ok (⟨r⟩, fs)
  | some (.dbFile _ false) => .error "Database integrity check failed"
  | some .garbage => .error "file is not a database"

/-- `getDatabase` (db.ts:89-147), for one store path (the per-path handle
cache does not affect the first open modelled here).  On an open error
with an existing file, the corrupt file and its `-wal`/`-shm` side files
are renamed aside with the timestamped `.corrupt.` suffix and a fresh
store is created. -/
def getDatabaseM (fs : Fsys) (p : String) (now : String) :
    Except String (DbHandle × Fsys) :=
  match openAndInitializeDatabase fs p with
  | .ok r => .ok r
  | .error e =>
    if fsExists fs p then
      let backup := p ++ ".corrupt." ++ now
      let fs1 := fsRename fs p backup
      let fs2 := fsRename fs1 (p ++ "-wal") (backup ++ "-wal")
      let fs3 := fsRename fs2 (p ++ "-shm") (backup ++ "-shm")
      match openAndInitializeDatabase fs3 p with
      | .ok r => .ok r
      | .error e2 => .error ("Failed to recover from database corruption: " ++ e2)
    else .error e

/-- Contents on which `openAndInitializeDatabase` throws. -/
def isCorrupt : Option FileContent → Bool
  | some (.dbFile _ false) => true
  | some .garbage => true
  | _ => false

def isOkE : Except ε α → Bool
  | .ok _ => true
  | .error _ => false

/-! ## Session identity resolver (`initMarkdownFile`, markdown.ts:92-144)

A narrative-log path is a pair (date directory name, file name).  The log
tree is a list of date directories, each a list of file names.  The
store's view is reduced to what the resolver reads and writes: per-session
`markdown_path` pointers, plus a reachability flag (an unreachable store
makes `getSessionMarkdownPath` / `updateSessionMarkdownPath` throw). -/

abbrev MPath := String × String

structure MdFs where
  dirs : List (String × List String)
deriving Repr, DecidableEq

def mdLookupDir (fs : MdFs) (d : String) : Option (List String) :=
  (fs.dirs.find? (fun kv => kv.1 == d)).map Prod.snd

def mdExistsFile (fs : MdFs) (p : MPath) : Bool :=
  match mdLookupDir fs p.1 with
  | some files => files.contains p.2
  | none => false

def mdAddFile (fs : MdFs) (p : MPath) : MdFs :=
  if (mdLookupDir fs p.1).isSome then
    ⟨fs.dirs.map fun kv => if kv.1 == p.1 then (kv.1, kv.2 ++ [p.2]) else kv⟩
  else ⟨fs.dirs ++ [(p.1, [p.2])]⟩

structure MdStore where
  reachable : Bool
  sessions : List (String × Option MPath)
deriving Repr, DecidableEq

/-- `getSessionMarkdownPath` (db.ts:222-227) as seen by the resolver: a
point lookup that throws when the store is unreachable.  A missing row and
a row with a NULL pointer both yield `none` (`result?.markdown_path ||
null`). -/
def storeGetMarkdownPath (st : MdStore) (sid : String) : Except Unit (Option MPath) :=
  if st.reachable then
    match st.sessions.find? (fun kv => kv.1 == sid) with
    | some kv => .ok kv.2
    | none => .ok none
  else .error ()

/-- `updateSessionMarkdownPath` (db.ts:211-220) as seen by the resolver: a
silent no-op when the session row does not exist; throws when the store is
unreachable. -/
def storeSetMarkdownPath (st : MdStore) (sid : String) (p : MPath) :
    Except Unit MdStore :=
  if st.reachable then
    .ok { st with sessions := st.sessions.map fun kv =>
            if kv.1 == sid then (kv.1, some p) else kv }
  else .error ()

abbrev MdCache := List (String × MPath)

def cacheGet (c : MdCache) (sid : String) : Option MPath :=
  (c.find? (fun kv => kv.1 == sid)).map Prod.snd

def cacheSet (c : MdCache) (sid : String) (p : MPath) : MdCache :=
  c.filter (fun kv => kv.1 != sid) ++ [(sid, p)]

/-! String helpers mirroring markdown.ts:42-81. -/

/-- The `^(\d+)_` match of markdown.ts:74-76: the numeric value of the
leading digit run when an underscore follows it, otherwise 0. -/
def parseSeq (f : String) : Nat :=
  let l := f.toList
  let ds := l.takeWhile Char.isDigit
  if ds.isEmpty then 0
  else
    match l.drop ds.length with
    | '_' :: _ => digitsToNat ds
    | _ => 0

/-- `String.padStart(2, "0")` of a decimal rendering. -/
def pad2 (n : Nat) : String :=
  let s := toString n
  if s.length < 2 then "0" ++ s else s

/-- `getNextSequenceNumber` (markdown.ts:61-81) on the file listing of the
date directory (a missing directory lists as no files and yields "01"). -/
def getNextSequenceNumber (files : List String) : String :=
  let mds := files.filter (fun f => strEndsWith f ".md")
  if mds.isEmpty then "01"
  else pad2 ((mds.map parseSeq).foldl Nat.max 0 + 1)

/-- The `/^\d{4}-\d{2}-\d{2}$/` date-directory filter (markdown.ts:331). -/
def isDateDirName (s : String) : Bool :=
  match s.toList with
  | [a, b, c, d, '-', e, f, '-', g, h] =>
    a.isDigit && b.isDigit && c.isDigit && d.isDigit &&
    e.isDigit && f.isDigit && g.isDigit && h.isDigit
  | _ => false

/-- Insert into a descending-sorted list (JS `.sort().reverse()` on
lexicographic string order). -/
def insertDesc (x : String) : List String → List String
  | [] => [x]
  | y :: ys => if strLt y x then x :: y :: ys else y :: insertDesc x ys

def sortDescStr : List String → List String
  | [] => []
  | x :: xs => insertDesc x (sortDescStr xs)

/-- `sanitizeFilename` (markdown.ts:42-48): replace every character
outside `[a-zA-Z0-9-_]` by `-`, collapse dash runs, trim leading/trailing
dashes, truncate to 50. -/
def sanitizeFilename (s : String) : String :=
  let repl := s.toList.map fun c =>
    if c.isAlphanum || c == '-' || c == '_' then c else '-'
  let collapsed := repl.foldr
    (fun c acc => if c == '-' && acc.head? == some '-' then acc else c :: acc) []
  let trimmed := (collapsed.dropWhile (· == '-')).reverse
    |>.dropWhile (· == '-') |>.reverse
  String.mk (trimmed.take 50)

/-- `path.basename` for the project paths used here: the last nonempty
`/`-separated component. -/
def basenameStr (p : String) : String :=
  (((splitOnChar '/' p.toList).map String.mk).filter (fun c => c != "")).getLastD ""

/-- `getProjectName` (markdown.ts:50-52). -/
def getProjectName (projectPath : String) : String :=
  let s := sanitizeFilename (basenameStr projectPath)
  if s == "" then "unknown-project" else s

/-- `searchForSessionFile` (markdown.ts:320-349): date-named directories,
lexicographically sorted, most recent first, limited to `searchDays`; in
each, the first file whose name contains the short session id and ends in
`.md`. -/
def findFirstFile (fs : MdFs) (shortId : String) : List String → Option MPath
  | [] => none
  | d :: rest =>
    match ((mdLookupDir fs d).getD []).find?
        (fun f => strHasSub f shortId && strEndsWith f ".md") with
    | some f => some (d, f)
    | none => findFirstFile fs shortId rest

def searchForSessionFile (fs : MdFs) (shortId : String) (searchDays : Nat) :
    Option MPath :=
  let names := (sortDescStr ((fs.dirs.map Prod.fst).filter isDateDirName)).take searchDays
  findFirstFile fs shortId names

/-- The resolver's state: the in-process `activeSessions` cache, the
structured store's pointer view, and the narrative-log tree. -/
structure ResState where
  cache : MdCache
  store : MdStore
  fs : MdFs
deriving Repr, DecidableEq

/-- `initMarkdownFile` (markdown.ts:92-144), the `resolve` operation of the
spec.  Three-tier lookup then allocation:
1. in-process cache, accepted only if the cached file still exists;
2. store pointer (`getSessionMarkdownPath`) — NOTE: the source has no
   try/catch here, so a store error propagates to the caller;
3. bounded filesystem scan by short session id;
4. allocation of a fresh path `{seq}_{HHMMSS}_{shortid}_{project}.md` in
   the start date's directory, persisting the pointer back.
`dateStr`/`timeStr` are the rendered local date (directory name) and
`HHMMSS` time of the start timestamp.  Resume markers and file contents
are not modelled; on an error the partially mutated state is discarded,
matching a caller that only observes the thrown error. -/
def initMarkdownFileM (st : ResState) (sid proj dateStr timeStr : String)
    (searchDays : Nat) : Except Unit (MPath × ResState) :=
  let cachedHit : Option MPath :=
    match cacheGet st.cache sid with
    | some p => if mdExistsFile st.fs p then some p else none
    | none => none
  match cachedHit with
  | some p => .ok (p, st)
  | none =>
    match storeGetMarkdownPath st.store sid with
    | .error e => .error e
    | .ok dbp =>
      let dbHit : Option MPath :=
        match dbp with
        | some p => if mdExistsFile st.fs p then some p else none
        | none => none
      match dbHit with
      | some p => .ok (p, { st with cache := cacheSet st.cache sid p })
      | none =>
        let short := strTake sid 8
        match searchForSessionFile st.fs short searchDays with
        | some p =>
          match storeSetMarkdownPath st.store sid p with
          | .error e => .error e
          | .ok store2 =>
            .ok (p, { cache := cacheSet st.cache sid p, store := store2, fs := st.fs })
        | none =>
          let seq := getNextSequenceNumber ((mdLookupDir st.fs dateStr).getD [])
          let fname := seq ++ "_" ++ timeStr ++ "_" ++ short ++ "_"
            ++ getProjectName proj ++ ".md"
          let p : MPath := (dateStr, fname)
          match storeSetMarkdownPath st.store sid p with
          | .error e => .error e
          | .ok store2 =>
            .ok (p, { cache := cacheSet st.cache sid p, store := store2,
                      fs := mdAddFile st.fs p })

/-- The path a resolution call returns, if it does not throw. -/
def resolveResult (st : ResState) (sid proj dateStr timeStr : String)
    (searchDays : Nat) : Option MPath :=
  match initMarkdownFileM st sid proj dateStr timeStr searchDays with
  | .ok (p, _) => some p
  | .error _ => none

/-- The state a resolution call leaves behind (unchanged if it throws). -/
def resolveState (st : ResState) (sid proj dateStr timeStr : String)
    (searchDays : Nat) : ResState :=
  match initMarkdownFileM st sid proj dateStr timeStr searchDays with
  | .ok (_, st2) => st2
  | .error _ => st

/-- A resolution performed by an independent process invocation: the
in-process cache starts empty. -/
def freshProcess (st : ResState) : ResState := { st with cache := [] }

def freshResolveState (st : ResState) (sid proj dateStr timeStr : String)
    (searchDays : Nat) : ResState :=
  resolveState (freshProcess st) sid proj dateStr timeStr searchDays

/-! # Theorems -/

/-! ## C10: the PostToolUse success flag -/

/-- Claim C10: for every PostToolUse event, the success flag recorded in
the structured store and rendered in the narrative log is `false` exactly
when the tool response's `success` field equals `false` or its `exit_code`
equals `1`; in every other case — including a response with no `success`
field and exit code 2 — the invocation is recorded as successful. -/
theorem postToolUse_success_flag :
    (∀ (db : Db) (sid tool : String) (r : ToolResponse) (dur : Option Nat),
        (handlePostToolUseDb db sid tool r dur).2 = computeToolSuccess r
        ∧ (handlePostToolUseDb db sid tool r dur).1
            = updateToolCallSuccess db sid tool (computeToolSuccess r) dur
        ∧ ((handlePostToolUseDb db sid tool r dur).2 = false
            ↔ r.success = some false ∨ r.exit_code = some 1))
    ∧ computeToolSuccess ⟨none, some 2⟩ = true := by
  refine ⟨fun db sid tool r dur => ⟨rfl, rfl, ?_⟩, rfl⟩
  show computeToolSuccess r = false ↔ _
  rcases r with ⟨s, e⟩
  simp [computeToolSuccess, Bool.and_eq_false_iff]
  tauto

/-! ## C5: the failure queue is a bounded ring with capacity 100 -/

/-- Claim C5: for every sequence of enqueue-failure operations the queue
never exceeds the capacity of 100 (the default of the spec; the source
hard-codes the literal `100` in `storeFailedEvent`), and appending to a
full queue evicts the oldest entry while keeping the newest. -/
theorem failureQueue_bounded_evicts_oldest :
    ∀ (q : List FailedEvent) (now : String) (e : HookPayload) (err : String)
      (att : Nat),
      (storeFailedEvent q now e err att).length ≤ 100
      ∧ (q.length = 100 →
          storeFailedEvent q now e err att = q.tail ++ [⟨now, e, err, att⟩]) := by
  intro q now e err att
  constructor
  · simp only [storeFailedEvent]
    split
    · simp only [List.length_drop, List.length_append, List.length_cons,
        List.length_nil]
      omega
    · next h =>
      simp only [not_lt, List.length_append, List.length_cons, List.length_nil] at h ⊢
      omega
  · intro h
    simp only [storeFailedEvent]
    cases q with
    | nil => simp at h
    | cons a t =>
      have ht : t.length = 99 := by simpa using h
      rw [show ((a :: t) ++ [(⟨now, e, err, att⟩ : FailedEvent)]).length = 101 by
        simp [ht]]
      rw [if_pos (by norm_num)]
      simp

def feProbe : FailedEvent := ⟨"t0", ⟨"SessionStart", "/p"⟩, "disk full", 3⟩

/-- Witness for C5 at a concrete full queue. -/
theorem failureQueue_bounded_evicts_oldest_witness :
    (List.replicate 100 feProbe).length = 100
    ∧ storeFailedEvent (List.replicate 100 feProbe) "t1" ⟨"Stop", "/p"⟩ "e" 3
        = (List.replicate 100 feProbe).tail ++ [⟨"t1", ⟨"Stop", "/p"⟩, "e", 3⟩] :=
  ⟨by simp,
   (failureQueue_bounded_evicts_oldest (List.replicate 100 feProbe) "t1"
      ⟨"Stop", "/p"⟩ "e" 3).2 (by simp)⟩

/-! ## C8: empty or unparseable stdin -/

/-- Counterexample to claim C8: with `blockOnFailure` enabled in the
global configuration, a process invocation whose stdin is unparseable JSON
exits with code 1, not 0 (handler.ts:1043-1050: the parse error reaches
the outer catch while `config` is still the global configuration). -/
theorem malformed_input_blockOnFailure_exits_nonzero :
    (mainModel (.malformed "not-json") ⟨true, 3, 2000, 7⟩
        (fun _ => defaultRetryCfg) (fun _ _ => .ok ()) [] "t").exitCode = 1 := rfl

/-- Claim C8 (amended): a process invocation whose input stream is empty
exits 0 without persisting anything; one whose input is unparseable JSON
persists nothing to either sink and never queues or retries the payload,
and exits 0 exactly when the global `blockOnFailure` is off — with
`blockOnFailure` enabled it exits 1. -/
theorem empty_or_malformed_input_never_persists :
    ∀ (gcfg : RetryCfg) (ecfg : HookPayload → RetryCfg)
      (op : HookPayload → Nat → Except String Unit) (q : List FailedEvent)
      (now raw : String),
      mainModel .empty gcfg ecfg op q now = ⟨0, q, none⟩
      ∧ mainModel (.malformed raw) gcfg ecfg op q now
          = ⟨if gcfg.blockOnFailure then 1 else 0, q, none⟩ :=
  fun _ _ _ _ _ _ => ⟨rfl, rfl⟩

/-! ## C9: aggregated tool-usage statistics -/

theorem sum_map_successScore (l : List ToolCallRow) :
    (l.map successScore).sum
      = 100 * ((l.countP (fun r => r.success == some 1) : Nat) : ℚ) := by
  induction l with
  | nil => simp
  | cons a t ih =>
    by_cases h : a.success = some 1
    · simp only [List.map_cons, List.sum_cons, ih, successScore, if_pos h,
        List.countP_cons, h, beq_self_eq_true, if_pos]
      push_cast
      ring
    · have hb : (a.success == some 1) = false := by simpa using h
      simp only [List.map_cons, List.sum_cons, ih, successScore, if_neg h,
        List.countP_cons, hb, if_neg]
      simp

/-- Claim C9: for a session with exactly 4 recorded invocations of one
tool, 3 with success recorded `true` (stored as 1) and 1 recorded `false`
(stored as 0), the aggregated per-tool usage statistics report count 4 and
success rate 75. -/
theorem toolUsageStats_three_of_four :
    ∀ (db : Db) (sid tool : String),
      (toolCallCandidates db sid tool).length = 4 →
      (toolCallCandidates db sid tool).countP (fun r => r.success == some 1) = 3 →
      (toolCallCandidates db sid tool).countP (fun r => r.success == some 0) = 1 →
      toolUsageCount db sid tool = 4 ∧ toolUsageSuccessRate db sid tool = 75 := by
  intro db sid tool hlen h1 _h0
  refine ⟨hlen, ?_⟩
  simp only [toolUsageSuccessRate]
  rw [sum_map_successScore, h1, hlen]
  norm_num [round2]

def c9db : Db :=
  insertToolCall
    (insertToolCall
      (insertToolCall
        (insertToolCall emptyDb "s" none "t1" "Bash" none (some 1) none)
        "s" none "t2" "Bash" none (some 1) none)
      "s" none "t3" "Bash" none (some 1) none)
    "s" none "t4" "Bash" none (some 0) none

/-- Witness for C9 at a concrete store with four tool calls. -/
theorem toolUsageStats_three_of_four_witness :
    toolUsageCount c9db "s" "Bash" = 4 ∧ toolUsageSuccessRate c9db "s" "Bash" = 75 :=
  toolUsageStats_three_of_four c9db "s" "Bash" (by decide) (by decide) (by decide)

/-! ## C6: retry exhaustion and replay -/

/-- `withRetry` with an operation failing on every attempt reports the
last attempt's error. -/
theorem withRetry_const_error (err : String) (op : Nat → Except String Unit)
    (hop : ∀ a, op a = .error err) : ∀ n a, withRetryAux op a n = .error err := by
  intro n
  induction n with
  | zero => intro a; simpa using hop a
  | succ k ih => intro a; simp only [withRetryAux, hop a]; exact ih (a + 1)

/-- Claim C6: an operation configured with `maxRetries = 3` that fails on
every attempt appends exactly one failure-queue entry whose `attempts`
field is 3; a subsequent replay-all against a backend that now succeeds
removes that entry, while entries that still fail on every attempt are
re-persisted with `attempts` increased by the effective `maxRetries`. -/
theorem retry_exhaustion_and_replay :
    (∀ (op : Nat → Except String Unit) (err : String) (gcfg : RetryCfg)
       (ecfg : HookPayload → RetryCfg) (e : HookPayload) (q : List FailedEvent)
       (now : String),
       (∀ a, op a = .error err) → (ecfg e).maxRetries = 3 → q.length < 100 →
       mainModel (.valid e) gcfg ecfg (fun _ => op) q now
         = ⟨if (ecfg e).blockOnFailure then 1 else 0, q ++ [⟨now, e, err, 3⟩], none⟩)
    ∧ (∀ (fe : FailedEvent) (cfgFor : HookPayload → RetryCfg)
         (opFor : FailedEvent → Nat → Except String Unit),
         (cfgFor fe.event).maxRetries = 3 → opFor fe 1 = .ok () →
         replayAll [fe] cfgFor opFor = [])
    ∧ (∀ (fe : FailedEvent) (cfgFor : HookPayload → RetryCfg)
         (opFor : FailedEvent → Nat → Except String Unit) (err2 : String),
         (cfgFor fe.event).maxRetries = 3 → (∀ a, opFor fe a = .error err2) →
         replayAll [fe] cfgFor opFor
           = [{ fe with attempts := fe.attempts + 3, error := err2 }]) := by
  refine ⟨?_, ?_, ?_⟩
  · intro op err gcfg ecfg e q now hop hmax hq
    have hfail : withRetry op (ecfg e).maxRetries = .error err := by
      rw [hmax]
      exact withRetry_const_error err op hop 2 1
    have hstore : storeFailedEvent q now e err (ecfg e).maxRetries
        = q ++ [⟨now, e, err, 3⟩] := by
      rw [hmax]
      simp only [storeFailedEvent]
      rw [if_neg (by simp; omega)]
    unfold mainModel
    simp only [hfail, hstore]
  · intro fe cfgFor opFor hmax hok
    unfold replayAll
    have h2 : withRetry (opFor fe) 3 = .ok () := by
      show withRetryAux (opFor fe) 1 2 = .ok ()
      simp [withRetryAux, hok]
    simp [h2, hmax]
  · intro fe cfgFor opFor err2 hmax hop
    unfold replayAll
    have h3 : withRetry (opFor fe) 3 = .error err2 :=
      withRetry_const_error err2 (opFor fe) hop 2 1
    simp [h3, hmax]

def feStuck : FailedEvent := ⟨"t0", ⟨"UserPromptSubmit", "/p"⟩, "locked", 3⟩

/-- Witness for C6 at a concrete always-failing operation, a concrete
entry whose replay succeeds, and a concrete entry whose replay keeps
failing. -/
theorem retry_exhaustion_and_replay_witness :
    mainModel (.valid ⟨"Stop", "/p"⟩) defaultRetryCfg (fun _ => defaultRetryCfg)
        (fun _ _ => (.error "disk full" : Except String Unit)) [] "t1"
      = ⟨0, [⟨"t1", ⟨"Stop", "/p"⟩, "disk full", 3⟩], none⟩
    ∧ replayAll [feStuck] (fun _ => defaultRetryCfg) (fun _ _ => .ok ()) = []
    ∧ replayAll [feStuck] (fun _ => defaultRetryCfg)
        (fun _ _ => (.error "still locked" : Except String Unit))
      = [{ feStuck with attempts := feStuck.attempts + 3, error := "still locked" }] :=
  ⟨retry_exhaustion_and_replay.1 _ "disk full" defaultRetryCfg _ _ [] "t1"
      (fun _ => rfl) rfl (by decide),
   retry_exhaustion_and_replay.2.1 feStuck _ _ rfl rfl,
   retry_exhaustion_and_replay.2.2 feStuck _ _ "still locked" rfl (fun _ => rfl)⟩

/-! ## C3: store-open corruption recovery -/

theorem str_ne_of_length_ne {a b : String} (h : a.length ≠ b.length) : a ≠ b :=
  fun e => h (congrArg String.length e)

theorem fsRemove_cons_keep (kv : String × FileContent) (t : Fsys) (q : String)
    (h : kv.1 ≠ q) : fsRemove (kv :: t) q = kv :: fsRemove t q := by
  simp [fsRemove, List.filter_cons, h]

theorem fsRemove_cons_drop (kv : String × FileContent) (t : Fsys) (q : String)
    (h : kv.1 = q) : fsRemove (kv :: t) q = fsRemove t q := by
  simp [fsRemove, List.filter_cons, h]

theorem fsLookup_cons_hit (kv : String × FileContent) (t : Fsys) (p : String)
    (h : kv.1 = p) : fsLookup (kv :: t) p = some kv.2 := by
  simp [fsLookup, List.find?, h]

theorem fsLookup_cons_miss (kv : String × FileContent) (t : Fsys) (p : String)
    (h : kv.1 ≠ p) : fsLookup (kv :: t) p = fsLookup t p := by
  have hb : (kv.1 == p) = false := by simpa using h
  simp [fsLookup, List.find?, hb]

theorem fsLookup_append_single (l : Fsys) (p : String) (c : FileContent) (q : String) :
    fsLookup (l ++ [(p, c)]) q
      = match fsLookup l q with
        | some x => some x
        | none => if q = p then some c else none := by
  induction l with
  | nil =>
    by_cases h : q = p
    · simp [fsLookup, List.find?, h]
    · have hb : (p == q) = false := by simpa using fun e : p = q => h e.symm
      simp [fsLookup, List.find?, hb, h]
  | cons kv t ih =>
    by_cases h : kv.1 = q
    · rw [List.cons_append, fsLookup_cons_hit kv _ q h, fsLookup_cons_hit kv t q h]
    · rw [List.cons_append, fsLookup_cons_miss kv _ q h, fsLookup_cons_miss kv t q h, ih]

theorem fsLookup_fsRemove_self (fs : Fsys) (p : String) :
    fsLookup (fsRemove fs p) p = none := by
  induction fs with
  | nil => rfl
  | cons kv t ih =>
    by_cases h : kv.1 = p
    · rw [fsRemove_cons_drop kv t p h]; exact ih
    · rw [fsRemove_cons_keep kv t p h, fsLookup_cons_miss _ _ _ h]; exact ih

theorem fsLookup_fsRemove_ne (fs : Fsys) (p q : String) (h : p ≠ q) :
    fsLookup (fsRemove fs q) p = fsLookup fs p := by
  induction fs with
  | nil => rfl
  | cons kv t ih =>
    by_cases hk : kv.1 = q
    · have hkp : kv.1 ≠ p := by rw [hk]; exact fun e => h e.symm
      rw [fsRemove_cons_drop kv t q hk, fsLookup_cons_miss kv t p hkp, ih]
    · by_cases hp : kv.1 = p
      · rw [fsRemove_cons_keep kv t q hk, fsLookup_cons_hit _ _ _ hp,
          fsLookup_cons_hit _ _ _ hp]
      · rw [fsRemove_cons_keep kv t q hk, fsLookup_cons_miss _ _ _ hp,
          fsLookup_cons_miss _ _ _ hp, ih]

theorem fsLookup_fsSet_self (fs : Fsys) (p : String) (c : FileContent) :
    fsLookup (fsSet fs p c) p = some c := by
  unfold fsSet
  rw [fsLookup_append_single, fsLookup_fsRemove_self]
  simp

theorem fsLookup_fsSet_ne (fs : Fsys) (p q : String) (c : FileContent) (h : q ≠ p) :
    fsLookup (fsSet fs p c) q = fsLookup fs q := by
  unfold fsSet
  rw [fsLookup_append_single, fsLookup_fsRemove_ne fs q p h]
  cases hx : fsLookup fs q
  · simp [h]
  · simp

theorem fsLookup_fsRename_other (fs : Fsys) (src dst q : String)
    (h1 : q ≠ src) (h2 : q ≠ dst) :
    fsLookup (fsRename fs src dst) q = fsLookup fs q := by
  unfold fsRename
  cases hx : fsLookup fs src
  · rfl
  · rw [fsLookup_fsSet_ne _ _ _ _ h2, fsLookup_fsRemove_ne _ _ _ h1]

theorem fsLookup_fsRename_src (fs : Fsys) (src dst : String) (h : src ≠ dst) :
    fsLookup (fsRename fs src dst) src = none := by
  unfold fsRename
  cases hx : fsLookup fs src
  · exact hx
  · rw [fsLookup_fsSet_ne _ _ _ _ h, fsLookup_fsRemove_self]

theorem fsLookup_fsRename_dst (fs : Fsys) (src dst : String) (c : FileContent)
    (hx : fsLookup fs src = some c) :
    fsLookup (fsRename fs src dst) dst = some c := by
  unfold fsRename
  rw [hx]
  exact fsLookup_fsSet_self _ _ _

theorem getDatabaseM_recovery (fs : Fsys) (p now : String) (c : FileContent)
    (hc : fsLookup fs p = some c) (err : String)
    (hopen : openAndInitializeDatabase fs p = .error err) :
    ∃ fs2, getDatabaseM fs p now = .ok (⟨0⟩, fs2)
      ∧ fsLookup fs2 (p ++ ".corrupt." ++ now) = fsLookup fs p
      ∧ fsLookup fs2 p = some (.dbFile 0 true) := by
  have l9 : (".corrupt." : String).length = 9 := rfl
  have l4 : ("-wal" : String).length = 4 := rfl
  have l4s : ("-shm" : String).length = 4 := rfl
  have h1 : p ≠ p ++ ".corrupt." ++ now := by
    apply str_ne_of_length_ne
    rw [String.length_append, String.length_append, l9]
    omega
  have h2 : p ≠ p ++ "-wal" := by
    apply str_ne_of_length_ne
    rw [String.length_append, l4]
    omega
  have h3 : p ≠ p ++ "-shm" := by
    apply str_ne_of_length_ne
    rw [String.length_append, l4s]
    omega
  have h4 : p ≠ p ++ ".corrupt." ++ now ++ "-wal" := by
    apply str_ne_of_length_ne
    rw [String.length_append, String.length_append, String.length_append, l9, l4]
    omega
  have h5 : p ≠ p ++ ".corrupt." ++ now ++ "-shm" := by
    apply str_ne_of_length_ne
    rw [String.length_append, String.length_append, String.length_append, l9, l4s]
    omega
  have h6 : p ++ ".corrupt." ++ now ≠ p ++ "-wal" := by
    apply str_ne_of_length_ne
    rw [String.length_append, String.length_append, String.length_append, l9, l4]
    omega
  have h7 : p ++ ".corrupt." ++ now ≠ p ++ "-shm" := by
    apply str_ne_of_length_ne
    rw [String.length_append, String.length_append, String.length_append, l9, l4s]
    omega
  have h8 : p ++ ".corrupt." ++ now ≠ p ++ ".corrupt." ++ now ++ "-wal" := by
    apply str_ne_of_length_ne
    rw [String.length_append (p ++ ".corrupt." ++ now), l4]
    omega
  have h9 : p ++ ".corrupt." ++ now ≠ p ++ ".corrupt." ++ now ++ "-shm" := by
    apply str_ne_of_length_ne
    rw [String.length_append (p ++ ".corrupt." ++ now), l4s]
    omega
  have hex : fsExists fs p = true := by simp [fsExists, hc]
  set fs1 := fsRename fs p (p ++ ".corrupt." ++ now) with hfs1
  set fs2 := fsRename fs1 (p ++ "-wal") (p ++ ".corrupt." ++ now ++ "-wal") with hfs2
  set fs3 := fsRename fs2 (p ++ "-shm") (p ++ ".corrupt." ++ now ++ "-shm") with hfs3
  have hl1 : fsLookup fs1 p = none := fsLookup_fsRename_src fs p _ h1
  have hl2 : fsLookup fs2 p = none := by
    rw [hfs2, fsLookup_fsRename_other _ _ _ _ h2 h4]
    exact hl1
  have hl3 : fsLookup fs3 p = none := by
    rw [hfs3, fsLookup_fsRename_other _ _ _ _ h3 h5]
    exact hl2
  have hopen3 : openAndInitializeDatabase fs3 p
      = .ok (⟨0⟩, fsSet fs3 p (.dbFile 0 true)) := by
    simp only [openAndInitializeDatabase, hl3]
  refine ⟨fsSet fs3 p (.dbFile 0 true), ?_, ?_, ?_⟩
  · simp only [getDatabaseM, hopen, hex, if_true, ← hfs1, ← hfs2, ← hfs3, hopen3]
  · rw [fsLookup_fsSet_ne _ _ _ _ (fun e => h1 e.symm), hfs3,
      fsLookup_fsRename_other _ _ _ _ h7 h9, hfs2,
      fsLookup_fsRename_other _ _ _ _ h6 h8, hfs1,
      fsLookup_fsRename_dst fs p _ c hc, hc]
  · exact fsLookup_fsSet_self _ _ _

/-- Claim C3: opening the store never raises, for every initial state of
the store file; opening a corrupt store renames it aside under the
timestamped `.corrupt.` suffix and ends with a fresh, empty, schema-valid
store at the original path. -/
theorem storeOpen_never_raises :
    ∀ (fs : Fsys) (p now : String),
      isOkE (getDatabaseM fs p now) = true
      ∧ (isCorrupt (fsLookup fs p) = true →
          ∃ fs2, getDatabaseM fs p now = .ok (⟨0⟩, fs2)
            ∧ fsLookup fs2 (p ++ ".corrupt." ++ now) = fsLookup fs p
            ∧ fsLookup fs2 p = some (.dbFile 0 true)) := by
  intro fs p now
  cases hc : fsLookup fs p with
  | none =>
    constructor
    · simp [getDatabaseM, openAndInitializeDatabase, hc, isOkE]
    · simp [isCorrupt]
  | some c =>
    cases c with
    | emptyFile =>
      constructor
      · simp [getDatabaseM, openAndInitializeDatabase, hc, isOkE]
      · simp [isCorrupt]
    | garbage =>
      have hopen : openAndInitializeDatabase fs p = .error "file is not a database" := by
        simp [openAndInitializeDatabase, hc]
      obtain ⟨fs2, he, hb, hp⟩ := getDatabaseM_recovery fs p now _ hc _ hopen
      exact ⟨by simp [he, isOkE], fun _ => ⟨fs2, he, hb.trans hc, hp⟩⟩
    | dbFile r intact =>
      cases intact with
      | true =>
        constructor
        · simp [getDatabaseM, openAndInitializeDatabase, hc, isOkE]
        · simp [isCorrupt]
      | false =>
        have hopen : openAndInitializeDatabase fs p
            = .error "Database integrity check failed" := by
          simp [openAndInitializeDatabase, hc]
        obtain ⟨fs2, he, hb, hp⟩ := getDatabaseM_recovery fs p now _ hc _ hopen
        exact ⟨by simp [he, isOkE], fun _ => ⟨fs2, he, hb.trans hc, hp⟩⟩

def fsCorruptProbe : Fsys := [("/db", .garbage), ("/db-wal", .emptyFile)]

/-- Witness for C3 at a concrete corrupt store file with a WAL side file. -/
theorem storeOpen_never_raises_witness :
    isOkE (getDatabaseM fsCorruptProbe "/db" "1700") = true
    ∧ ∃ fs2, getDatabaseM fsCorruptProbe "/db" "1700" = .ok (⟨0⟩, fs2)
        ∧ fsLookup fs2 ("/db" ++ ".corrupt." ++ "1700") = fsLookup fsCorruptProbe "/db"
        ∧ fsLookup fs2 "/db" = some (.dbFile 0 true) :=
  ⟨(storeOpen_never_raises fsCorruptProbe "/db" "1700").1,
   (storeOpen_never_raises fsCorruptProbe "/db" "1700").2 (by decide)⟩

/-! ## C4: which tool-call row the result update targets -/

theorem foldl_latest_spec (rs : List ToolCallRow) (a : ToolCallRow) :
    (rs.foldl (fun acc x => if strLt acc.timestamp x.timestamp then x else acc) a = a
      ∨ rs.foldl (fun acc x => if strLt acc.timestamp x.timestamp then x else acc) a ∈ rs)
    ∧ strLe a.timestamp
        (rs.foldl (fun acc x => if strLt acc.timestamp x.timestamp then x else acc) a).timestamp
          = true
    ∧ ∀ x ∈ rs,
        strLe x.timestamp
          (rs.foldl (fun acc x => if strLt acc.timestamp x.timestamp then x else acc) a).timestamp
            = true := by
  induction rs generalizing a with
  | nil => exact ⟨Or.inl rfl, strLe_refl _, by simp⟩
  | cons y ys ih =>
    simp only [List.foldl_cons]
    by_cases h : strLt a.timestamp y.timestamp
    · rw [if_pos h]
      obtain ⟨hm, hle, hall⟩ := ih y
      refine ⟨?_, strLe_trans (strLe_of_lt h) hle, ?_⟩
      · rcases hm with h1 | h1
        · exact Or.inr (by rw [h1]; exact List.mem_cons_self y ys)
        · exact Or.inr (List.mem_cons_of_mem y h1)
      · intro x hx
        rcases List.mem_cons.mp hx with rfl | hx2
        · exact hle
        · exact hall x hx2
    · rw [if_neg h]
      obtain ⟨hm, hle, hall⟩ := ih a
      refine ⟨?_, hle, ?_⟩
      · rcases hm with h1 | h1
        · exact Or.inl h1
        · exact Or.inr (List.mem_cons_of_mem y h1)
      · intro x hx
        rcases List.mem_cons.mp hx with rfl | hx2
        · exact strLe_trans (strLe_of_not_lt (Bool.of_not_eq_true h)) hle
        · exact hall x hx2

theorem pickLatest_spec (l : List ToolCallRow) (r : ToolCallRow)
    (h : pickLatest l = some r) :
    r ∈ l ∧ ∀ x ∈ l, strLe x.timestamp r.timestamp = true := by
  cases l with
  | nil => simp [pickLatest] at h
  | cons a rs =>
    simp only [pickLatest, Option.some.injEq] at h
    obtain ⟨hm, hle, hall⟩ := foldl_latest_spec rs a
    constructor
    · rcases hm with h1 | h1
      · rw [← h, h1]; exact List.mem_cons_self a rs
      · rw [← h]; exact List.mem_cons_of_mem a h1
    · intro x hx
      rcases List.mem_cons.mp hx with rfl | hx2
      · rw [← h]; exact hle
      · rw [← h]; exact hall x hx2

def toolCallById (db : Db) (i : Nat) : Option ToolCallRow :=
  db.toolCalls.find? (fun r => r.id == i)

def c4db1 : Db :=
  insertToolCall (insertToolCall emptyDb "s" none "ta" "Bash" none none none)
    "s" none "tb" "Bash" none none none

def c4db2 : Db := updateToolCallSuccess c4db1 "s" "Bash" true (some 5)

def c4db3 : Db := updateToolCallSuccess c4db2 "s" "Bash" false (some 7)

/-- Counterexample to claim C4: two invocations of the same tool for one
session (ids 1 and 2, timestamps "ta" < "tb").  After the first
update-tool-result, row 2 already carries a result and row 1 is the most
recently inserted invocation without one; the claim says the second
update must then target row 1, but the code updates row 2 again (the
subquery has no `success IS NULL` condition) and leaves row 1 unset. -/
theorem updateToolCall_counterexample :
    (toolCallById c4db2 2).map ToolCallRow.success = some (some 1)
    ∧ (toolCallById c4db2 1).map ToolCallRow.success = some none
    ∧ (toolCallById c4db3 2).map ToolCallRow.success = some (some 0)
    ∧ (toolCallById c4db3 1).map ToolCallRow.success = some none := by decide

/-- Claim C4 (amended): `updateToolCallSuccess` targets the invocation of
the (session id, tool name) pairing with the greatest timestamp,
regardless of whether that invocation already received a result; exactly
that row's `success` and `duration_ms` change and every other row is left
unchanged; with no matching invocation the store is unchanged. -/
theorem updateToolCallSuccess_targets_latest :
    ∀ (db : Db) (sid tool : String) (succ : Bool) (dur : Option Nat),
      (pickLatest (toolCallCandidates db sid tool) = none →
        updateToolCallSuccess db sid tool succ dur = db)
      ∧ ∀ r, pickLatest (toolCallCandidates db sid tool) = some r →
          r ∈ db.toolCalls ∧ r.session_id = sid ∧ r.tool_name = tool
          ∧ (∀ x ∈ toolCallCandidates db sid tool,
              strLe x.timestamp r.timestamp = true)
          ∧ (updateToolCallSuccess db sid tool succ dur).toolCalls
              = db.toolCalls.map (fun x => if x.id = r.id
                  then { x with
                          success := some (if succ then 1 else 0)
                          duration_ms := dur }
                  else x) := by
  intro db sid tool succ dur
  constructor
  · intro h
    simp [updateToolCallSuccess, h]
  · intro r hr
    obtain ⟨hmem, hmax⟩ := pickLatest_spec _ r hr
    unfold toolCallCandidates at hmem
    have hf := List.mem_filter.mp hmem
    have hpred := hf.2
    simp only [Bool.and_eq_true, beq_iff_eq] at hpred
    refine ⟨hf.1, hpred.1, hpred.2, hmax, ?_⟩
    simp [updateToolCallSuccess, hr]

def c4row2 : ToolCallRow := ⟨2, "s", none, "tb", "Bash", none, none, none⟩

/-- Witness for C4 (amended) at the concrete two-row store. -/
theorem updateToolCallSuccess_targets_latest_witness :
    c4row2 ∈ c4db1.toolCalls ∧ c4row2.session_id = "s" ∧ c4row2.tool_name = "Bash"
    ∧ (∀ x ∈ toolCallCandidates c4db1 "s" "Bash",
        strLe x.timestamp c4row2.timestamp = true)
    ∧ (updateToolCallSuccess c4db1 "s" "Bash" true (some 5)).toolCalls
        = c4db1.toolCalls.map (fun x => if x.id = c4row2.id
            then { x with success := some (if true then 1 else 0), duration_ms := some 5 }
            else x) :=
  (updateToolCallSuccess_targets_latest c4db1 "s" "Bash" true (some 5)).2 c4row2 (by decide)

/-! ## C1: the message-count invariant -/

instance (db : Db) : Decidable (msgInv db) := by
  unfold msgInv
  infer_instance

def c1d1 : Db := createSession emptyDb "s" "/p" "t0" "active" "cli" none
def c1d2 : Db := insertMessage c1d1 "s" "t1" "user" "hello" none none none
def c1d3 : Db := createSession c1d2 "s" "/p" "t2" "active" "cli" none

/-- Counterexample to claim C1: create a session, append one message (the
invariant holds, count = rows = 1), then apply create-or-replace to the
same session id again.  `INSERT OR REPLACE` re-inserts the row with the
schema default `message_count = 0` while the message row survives, so the
equality is broken by an operation the claim says preserves it. -/
theorem messageCount_replace_counterexample :
    msgInv c1d2
    ∧ ¬ msgInv c1d3
    ∧ (c1d3.sessions.map SessionRow.message_count = [0])
    ∧ (messagesFor c1d3 "s").length = 1 := by decide

theorem msgInv_applyOp (db : Db) (op : DbOp) (h : msgInv db)
    (hok : okStep db op = true) : msgInv (applyOp db op) := by
  cases op with
  | createSessionOp i p st s f md =>
    simp only [okStep, beq_iff_eq] at hok
    intro s2 hs2
    have hmsg : messagesFor (applyOp db (.createSessionOp i p st s f md)) s2.id
        = messagesFor db s2.id := rfl
    simp only [applyOp, createSession] at hs2
    rcases List.mem_append.mp hs2 with hs3 | hs3
    · have := List.mem_filter.mp hs3
      rw [hmsg]
      exact h s2 this.1
    · have he : s2 = ⟨i, p, st, none, s, none, 0, f, md⟩ := by simpa using hs3
      rw [hmsg, he]
      show 0 = (messagesFor db i).length
      rw [hok]
      rfl
  | insertMessageOp sid ts role c tn ti tout =>
    intro s2 hs2
    simp only [applyOp, insertMessage, incrementMessageCount] at hs2
    rw [List.mem_map] at hs2
    obtain ⟨s0, hs0, rfl⟩ := hs2
    by_cases hid : s0.id = sid
    · simp only [if_pos hid]
      show s0.message_count + 1 = (messagesFor _ _).length
      have : messagesFor (applyOp db (.insertMessageOp sid ts role c tn ti tout))
          s0.id = messagesFor db s0.id ++ [⟨db.nextMessageId, sid, ts, role, c, tn, ti, tout⟩] := by
        simp only [applyOp, insertMessage, incrementMessageCount, messagesFor]
        rw [List.filter_append]
        simp [hid]
      rw [show ({ s0 with message_count := s0.message_count + 1 } : SessionRow).id
            = s0.id from rfl, this]
      rw [List.length_append]
      simp [h s0 hs0]
    · simp only [if_neg hid]
      have : messagesFor (applyOp db (.insertMessageOp sid ts role c tn ti tout))
          s0.id = messagesFor db s0.id := by
        simp only [applyOp, insertMessage, incrementMessageCount, messagesFor]
        rw [List.filter_append]
        have hb : ((⟨db.nextMessageId, sid, ts, role, c, tn, ti, tout⟩ :
            MessageRow).session_id == s0.id) = false := by
          simpa using fun e : sid = s0.id => hid e.symm
        simp [hb]
      rw [this]
      exact h s0 hs0
  | updateSessionEndOp sid r now =>
    intro s2 hs2
    simp only [applyOp, updateSessionEnd] at hs2
    rw [List.mem_map] at hs2
    obtain ⟨s0, hs0, rfl⟩ := hs2
    have hmsg : ∀ q, messagesFor (applyOp db (.updateSessionEndOp sid r now)) q
        = messagesFor db q := fun _ => rfl
    by_cases hid : s0.id = sid
    · simp only [if_pos hid, hmsg]
      exact h s0 hs0
    · simp only [if_neg hid, hmsg]
      exact h s0 hs0
  | updateSessionMarkdownPathOp sid p =>
    intro s2 hs2
    simp only [applyOp, updateSessionMarkdownPath] at hs2
    rw [List.mem_map] at hs2
    obtain ⟨s0, hs0, rfl⟩ := hs2
    have hmsg : ∀ q, messagesFor (applyOp db (.updateSessionMarkdownPathOp sid p)) q
        = messagesFor db q := fun _ => rfl
    by_cases hid : s0.id = sid
    · simp only [if_pos hid, hmsg]
      exact h s0 hs0
    · simp only [if_neg hid, hmsg]
      exact h s0 hs0
  | insertToolCallOp sid mid ts tool insum succ dur =>
    exact h
  | updateToolCallSuccessOp sid tool succ dur =>
    show msgInv (updateToolCallSuccess db sid tool succ dur)
    unfold updateToolCallSuccess
    cases pickLatest (toolCallCandidates db sid tool) with
    | none => exact h
    | some r => exact h
  | insertEventOp e => exact h
  | insertBackupOp b => exact h

/-- Claim C1 (amended): the stored message count of every session equals
the number of message rows for that session, and this is preserved by
every store operation — except that create-or-replace of a session row
must only be applied to a session with no message rows (as the handler
does: `createSession` is only called for ids with no existing session).
In particular, after a fresh create and `n` message appends the stored
count is `n`. -/
theorem messageCount_invariant_guarded :
    ∀ (ops : List DbOp) (db : Db), msgInv db → guarded db ops = true →
      msgInv (applyOps db ops) := by
  intro ops
  induction ops with
  | nil => intro db h _; exact h
  | cons op rest ih =>
    intro db h hg
    simp only [guarded, Bool.and_eq_true] at hg
    exact ih (applyOp db op) (msgInv_applyOp db op h hg.1) hg.2

def c1ops : List DbOp :=
  [.createSessionOp "s" "/p" "t0" "active" "cli" none,
   .insertMessageOp "s" "t1" "user" "hello" none none none,
   .insertMessageOp "s" "t2" "user" "again" none none none,
   .updateSessionEndOp "s" "logout" "t3"]

/-- Witness for C1 (amended): a fresh create followed by two message
appends and a session-end update keeps the invariant (count = rows = 2). -/
theorem messageCount_invariant_guarded_witness :
    msgInv emptyDb ∧ guarded emptyDb c1ops = true ∧ msgInv (applyOps emptyDb c1ops) :=
  ⟨by decide, by decide, messageCount_invariant_guarded c1ops emptyDb (by decide) (by decide)⟩

/-! ## C7: the store-pointer lookup error propagates -/

instance {ε α : Type} [DecidableEq ε] [DecidableEq α] : DecidableEq (Except ε α) :=
  fun x y =>
    match x, y with
    | .ok a, .ok b => decidable_of_iff (a = b) (by simp)
    | .ok _, .error _ => isFalse (fun h => Except.noConfusion h)
    | .error _, .ok _ => isFalse (fun h => Except.noConfusion h)
    | .error a, .error b => decidable_of_iff (a = b) (by simp)

/-- The in-process cache gives no usable hit for `sid`: either no entry,
or the cached file no longer exists (the code then falls through). -/
def cacheMissB (st : ResState) (sid : String) : Bool :=
  match cacheGet st.cache sid with
  | some p => !(mdExistsFile st.fs p)
  | none => true

def c7st : ResState :=
  ⟨[], ⟨false, []⟩, ⟨[("2025-01-01", ["01_000000_aaaabbbb_p.md"])]⟩⟩

/-- Counterexample to claim C7: the store is unreachable, and the bounded
filesystem scan would find the session's narrative file — yet resolution
raises instead of treating the store-pointer lookup as "not found",
because `initMarkdownFile` has no try/catch around
`getSessionMarkdownPath`. -/
theorem storeError_propagates_counterexample :
    searchForSessionFile c7st.fs (strTake "aaaabbbbcccc" 8) 7
        = some ("2025-01-01", "01_000000_aaaabbbb_p.md")
    ∧ initMarkdownFileM c7st "aaaabbbbcccc" "/p" "2025-01-01" "090000" 7
        = .error () := by decide

/-- Claim C7 (amended): when the in-process cache gives no usable hit and
the structured store is unreachable, the store-pointer lookup's error
propagates out of the resolution operation (to be handled by the caller's
retry/failure-queue layer); resolution does not fall through to the
filesystem scan or to allocation. -/
theorem storeError_propagates :
    ∀ (st : ResState) (sid proj dateStr timeStr : String) (days : Nat),
      st.store.reachable = false → cacheMissB st sid = true →
      initMarkdownFileM st sid proj dateStr timeStr days = .error () := by
  intro st sid proj dateStr timeStr days hr hc
  have hs : storeGetMarkdownPath st.store sid = .error () := by
    unfold storeGetMarkdownPath
    rw [hr]
    simp
  unfold initMarkdownFileM
  unfold cacheMissB at hc
  cases hcg : cacheGet st.cache sid with
  | none => simp [hcg, hs]
  | some p =>
    rw [hcg] at hc
    have hex : mdExistsFile st.fs p = false := by simpa using hc
    simp [hcg, hex, hs]

/-- Witness for C7 (amended) at a concrete unreachable-store state. -/
theorem storeError_propagates_witness :
    initMarkdownFileM ⟨[], ⟨false, []⟩, ⟨[]⟩⟩ "sid1" "/p" "2025-01-01" "000000" 7
      = .error () :=
  storeError_propagates ⟨[], ⟨false, []⟩, ⟨[]⟩⟩ "sid1" "/p" "2025-01-01" "000000" 7
    rfl rfl

/-! ## C2: idempotence of resolution -/

def c2st0 : ResState := ⟨[], ⟨true, []⟩, ⟨[]⟩⟩

def c2stB : ResState := resolveState c2st0 "aaaabbbbcccc" "/p" "2025-01-01" "000000" 7

def c2others : List (String × String) :=
  [("s2s2s2s2", "2025-01-02"), ("s3s3s3s3", "2025-01-03"), ("s4s4s4s4", "2025-01-04"),
   ("s5s5s5s5", "2025-01-05"), ("s6s6s6s6", "2025-01-06"), ("s7s7s7s7", "2025-01-07"),
   ("s8s8s8s8", "2025-01-08")]

def c2stN : ResState :=
  c2others.foldl (fun st sd => freshResolveState st sd.1 "/q" sd.2 "120000" 7) c2stB

/-- Counterexample to claim C2: the store has no session row, so the
pointer persisted at allocation is a silent no-op.  Session
"aaaabbbbcccc" gets "2025-01-01/01_000000_aaaabbbb_p.md" allocated; after
seven other sessions allocate targets on seven later dates (every step a
resolver operation), an independent process invocation resolving the same
(session id, project) pair scans only the 7 most recent date directories,
misses the allocated file, and allocates a different fresh target. -/
theorem resolution_reallocates_counterexample :
    resolveResult c2st0 "aaaabbbbcccc" "/p" "2025-01-01" "000000" 7
        = some ("2025-01-01", "01_000000_aaaabbbb_p.md")
    ∧ resolveResult (freshProcess c2stN) "aaaabbbbcccc" "/p" "2025-01-08" "090000" 7
        = some ("2025-01-08", "02_090000_aaaabbbb_p.md")
    ∧ (("2025-01-01", "01_000000_aaaabbbb_p.md") : MPath)
        ≠ ("2025-01-08", "02_090000_aaaabbbb_p.md") := by decide

/-- The store still points at `p` for `sid`, the store is reachable, and
the pointed-to narrative file exists. -/
def goodPointer (st : ResState) (sid : String) (p : MPath) : Prop :=
  st.store.reachable = true
  ∧ st.store.sessions.find? (fun kv => kv.1 == sid) = some (sid, some p)
  ∧ mdExistsFile st.fs p = true

theorem resolveFresh_stable (st : ResState) (sid : String) (p : MPath)
    (h : goodPointer st sid p) (proj dateStr timeStr : String) (days : Nat) :
    initMarkdownFileM (freshProcess st) sid proj dateStr timeStr days
      = .ok (p, ⟨cacheSet [] sid p, st.store, st.fs⟩) := by
  obtain ⟨hr, hf, he⟩ := h
  have hs : storeGetMarkdownPath st.store sid = .ok (some p) := by
    unfold storeGetMarkdownPath
    rw [hr, hf]
    simp
  unfold initMarkdownFileM freshProcess
  simp [hs, he, cacheGet]

/-- Fresh-process resolutions iterated `k` times (each one an independent
process invocation with an empty in-process cache). -/
def iterFresh (sid proj dateStr timeStr : String) (days : Nat) :
    Nat → ResState → ResState
  | 0, st => st
  | k + 1, st =>
    iterFresh sid proj dateStr timeStr days k
      (freshResolveState st sid proj dateStr timeStr days)

/-- Claim C2 (amended): once a narrative-log target has been allocated
AND the structured store retains the session's pointer to it (the session
row existed when the pointer was persisted) AND the target file still
exists, resolution is idempotent across independent process invocations:
every later fresh-process call returns the same path and preserves the
pointer.  (When the pointer was not persisted — session row absent — and
the target's date directory has fallen outside the `maxSearchDays` most
recent directories, a later resolution allocates a fresh target instead;
see the counterexample.) -/
theorem resolution_idempotent_with_pointer :
    ∀ (st : ResState) (sid : String) (p : MPath),
      goodPointer st sid p →
      ∀ (proj dateStr timeStr : String) (days k : Nat),
        goodPointer (iterFresh sid proj dateStr timeStr days k st) sid p
        ∧ resolveResult
            (freshProcess (iterFresh sid proj dateStr timeStr days k st))
            sid proj dateStr timeStr days = some p := by
  intro st sid p h proj dateStr timeStr days k
  induction k generalizing st with
  | zero =>
    refine ⟨h, ?_⟩
    unfold resolveResult
    simp only [iterFresh]
    rw [resolveFresh_stable st sid p h proj dateStr timeStr days]
  | succ k ih =>
    simp only [iterFresh]
    have hstep : freshResolveState st sid proj dateStr timeStr days
        = ⟨cacheSet [] sid p, st.store, st.fs⟩ := by
      unfold freshResolveState resolveState
      rw [resolveFresh_stable st sid p h proj dateStr timeStr days]
    have hgood : goodPointer (freshResolveState st sid proj dateStr timeStr days) sid p := by
      rw [hstep]
      exact h
    exact ih _ hgood

def c2stw : ResState :=
  ⟨[], ⟨true, [("sid1", some ("2025-01-01", "f.md"))]⟩, ⟨[("2025-01-01", ["f.md"])]⟩⟩

/-- Witness for C2 (amended): two iterated fresh-process resolutions on a
concrete state with a persisted pointer keep returning the same path. -/
theorem resolution_idempotent_with_pointer_witness :
    goodPointer (iterFresh "sid1" "/p" "2025-01-02" "090000" 7 2 c2stw) "sid1"
        ("2025-01-01", "f.md")
    ∧ resolveResult
        (freshProcess (iterFresh "sid1" "/p" "2025-01-02" "090000" 7 2 c2stw))
        "sid1" "/p" "2025-01-02" "090000" 7 = some ("2025-01-01", "f.md") :=
  resolution_idempotent_with_pointer c2stw "sid1" ("2025-01-01", "f.md")
    (by refine ⟨rfl, rfl, rfl⟩) "/p" "2025-01-02" "090000" 7 2

end ClaudeRemember
